import Mathlib

set_option maxHeartbeats 4000000
set_option maxRecDepth 8000

/-!
Shallow embedding of the telethon message-formatting entity codec, from
`src/telethon/extensions/markdown.py` and `src/telethon/extensions/markdown2.py`.

Strings are modelled as lists of code units (`List Nat`): codepoints at the
facade boundary, UTF-16 code units after surrogate expansion.  Entity offsets
and lengths are modelled as `Int`, matching Python's unbounded signed integers
(the scanner's in-place length adjustments may in principle go negative).

Helper functions of `telethon/helpers.py` (`within_surrogate`, `strip_text`)
are not part of the sampled sources; they are modelled from the spec and say
so in their doc comments.  Everything else is translated from the source.
-/

/-- Codepoints of a host string, used to write concrete inputs. -/
def cps (s : String) : List Nat := s.data.map Char.toNat

/-- High surrogate range of the UTF-16 offset address space. -/
def isHighSurr (u : Nat) : Bool := decide (0xD800 ≤ u) && decide (u ≤ 0xDBFF)

/-- Low surrogate range of the UTF-16 offset address space. -/
def isLowSurr (u : Nat) : Bool := decide (0xDC00 ≤ u) && decide (u ≤ 0xDFFF)

/-- `Vars.add_surrogates` (markdown2.py, lines 76-83): every codepoint outside
the Basic Multilingual Plane is replaced by its two UTF-16 surrogate units. -/
def addSurrogates : List Nat → List Nat
  | [] => []
  | cp :: rest =>
    (if 0x10000 ≤ cp ∧ cp ≤ 0x10FFFF then
      [0xD800 + (cp - 0x10000) / 0x400, 0xDC00 + (cp - 0x10000) % 0x400]
    else [cp]) ++ addSurrogates rest

/-- `Vars.remove_surrogates` (markdown2.py, lines 85-88): adjacent surrogate
pairs are recombined into a single codepoint. -/
def removeSurrogates : List Nat → List Nat
  | u1 :: u2 :: rest =>
    if isHighSurr u1 ∧ isLowSurr u2 then
      (0x10000 + (u1 - 0xD800) * 0x400 + (u2 - 0xDC00)) :: removeSurrogates rest
    else u1 :: removeSurrogates (u2 :: rest)
  | l => l

/-- Unit of a code-unit string at an integer index, zero past the ends. -/
def unitAt (t : List Nat) (i : Int) : Nat :=
  if 0 ≤ i then t.getD i.toNat 0 else 0

/-- Modelled from the spec: `helpers.within_surrogate` is not part of the
sampled sources.  A position is within a surrogate exactly when it falls
strictly between the two units of a surrogate pair. -/
def withinSurrogate (t : List Nat) (i : Int) : Bool :=
  decide (0 < i) && decide (i < (t.length : Int)) &&
    isHighSurr (unitAt t (i - 1)) && isLowSurr (unitAt t i)

/-- Fuelled version of the nudge loop of `markdown.unparse` (line 246-247). -/
def nudgeAux (t : List Nat) : Nat → Int → Int
  | 0, i => i
  | f + 1, i => if withinSurrogate t i then nudgeAux t f (i + 1) else i

/-- The insertion-position adjustment of `markdown.unparse`:
`while within_surrogate(text, at): at += 1`. -/
def nudge (t : List Nat) (i : Int) : Int := nudgeAux t (t.length + 1) i

/-- The closed variant of entity kinds handled by the codec (the
`MessageEntity*` constructors used in the two modules; the generated TL
classes themselves are not part of the sampled sources, so the payload model
follows the spec's data model). -/
inductive EKind where
  | bold
  | italic
  | underline
  | strike
  | spoiler
  | code
  | pre (language : List Nat)
  | textUrl (url : List Nat)
  | mentionName (userId : Int)
  | customEmoji (documentId : Int)
  | blockquote (collapsed : Bool)
deriving DecidableEq, Repr

/-- A formatting span: offset and length in UTF-16 code units. -/
structure Entity where
  kind : EKind
  offset : Int
  length : Int
deriving DecidableEq, Repr

/-- Slice `t[a:b]` for natural bounds. -/
def strExtract (t : List Nat) (a b : Nat) : List Nat := (t.drop a).take (b - a)

/-- Python `t.startswith(p)`. -/
def startsWith (t p : List Nat) : Bool := p.isPrefixOf t

/-- Python `t.endswith(p)`. -/
def endsWith (t p : List Nat) : Bool := p.isSuffixOf t

/-- Python `t.find(sub, start, stop)`: the first index in `[start, stop)` at
which `sub` occurs entirely inside the bound, `none` standing for `-1`. -/
def strFind? (t sub : List Nat) (start stop : Nat) : Option Nat :=
  (List.range (stop + 1)).find? (fun j =>
    decide (start ≤ j) && decide (j + sub.length ≤ stop) && sub.isPrefixOf (t.drop j))

/-- Python `str.isspace` for the units the codec can meet. -/
def isPySpace (u : Nat) : Bool :=
  u = 32 ∨ u = 9 ∨ u = 10 ∨ u = 13 ∨ u = 11 ∨ u = 12

/-- Python `int()` restricted to unsigned digit strings (the only shapes the
codec feeds it); `none` models the `ValueError`/`TypeError` crash. -/
def parseInt (s : List Nat) : Option Int :=
  if s ≠ [] ∧ s.all (fun u => 48 ≤ u ∧ u ≤ 57) then
    some (Int.ofNat (s.foldl (fun a u => a * 10 + (u - 48)) 0))
  else none

/-- Decimal digits of a natural number. -/
def natDigitsAux : Nat → Nat → List Nat
  | 0, _ => []
  | f + 1, n => if n < 10 then [48 + n] else natDigitsAux f (n / 10) ++ [48 + n % 10]

/-- Decimal rendering of a natural number. -/
def natDigits (n : Nat) : List Nat := natDigitsAux (n + 1) n

/-- Decimal rendering of an integer, as Python `str` would produce it. -/
def intStr (i : Int) : List Nat :=
  if i < 0 then 45 :: natDigits i.natAbs else natDigits i.toNat

/-- Python `sep.split` on a single separator unit, keeping empty parts. -/
def splitOn (sep : Nat) : List Nat → List (List Nat)
  | [] => [[]]
  | u :: rest =>
    let r := splitOn sep rest
    if u = sep then [] :: r
    else (u :: r.headD []) :: r.tail

/- ------------------------------------------------------------------ -/
/- markdown.py: the legacy Markdown dialect engine                     -/
/- ------------------------------------------------------------------ -/

/-- The delimiter table of markdown.py (`DEFAULT_DELIMITERS`), listed in the
order the combined regex tries the alternatives: longest first, ties in table
order (markdown.py lines 26-34 and 64-72). -/
def mdDelims : List (List Nat) :=
  [cps ("```"), cps ("**"), cps ("__"), cps ("~~"), cps ("||"), cps ("^^"), cps ("`")]

/-- `delim_re.match(message, pos=i)`: the first alternative matching at `i`. -/
def matchDelim (t : List Nat) (i : Nat) : Option (List Nat) :=
  mdDelims.find? (fun d => d.isPrefixOf (t.drop i))

/-- Entity kind built for a delimiter (`delimiters[delim]`); the `^^` entry
wraps `MessageEntityBlockquote` with `collapsed=True`. -/
def delimKind (d : List Nat) : EKind :=
  if d = cps ("**") then .bold
  else if d = cps ("__") then .italic
  else if d = cps ("~~") then .strike
  else if d = cps ("`") then .code
  else if d = cps ("```") then .pre []
  else if d = cps ("||") then .spoiler
  else .blockquote true

/-- Removal of a matched delimiter pair from the message
(markdown.py lines 93-100). -/
def mdSplice (t d : List Nat) (i endPos : Nat) : List Nat :=
  t.take i ++ strExtract t (i + d.length) endPos ++ t.drop (endPos + d.length)

/-- Adjustment of the already-recorded entities after a splice
(markdown.py lines 102-112): an entity whose end lies after `i` shrinks by
`2*len(d)` when it fully encloses the deleted region and by `len(d)`
otherwise. -/
def mdAdjust (res : List Entity) (i endPos dLen : Nat) : List Entity :=
  res.map (fun ent =>
    if (i : Int) < ent.offset + ent.length then
      if ent.offset ≤ (i : Int) ∧ (endPos : Int) + dLen ≤ ent.offset + ent.length then
        { ent with length := ent.length - 2 * dLen }
      else { ent with length := ent.length - dLen }
    else ent)

/-- The `MessageEntityPre` language test of markdown.py lines 117-120: a line
break is found in the spliced span and at least two units follow it. -/
def preLangCond (msg1 : List Nat) (i endPos dLen : Nat) : Bool :=
  match strFind? msg1 [10] i (endPos - dLen) with
  | some li => decide ((1 : Int) < (endPos : Int) - dLen - li)
  | none => false

/-- `DEFAULT_URL_RE.match(message, pos=i)`: the lazy groups make the label run
to the first `]` (which must be followed by `(`) and the url to the first `)`.
Returns (label, url, end of the whole match). -/
def urlMatch (t : List Nat) (i : Nat) : Option (List Nat × List Nat × Nat) :=
  match (t.drop i).head? with
  | some 91 =>
    (match strFind? t [93] (i + 1) t.length with
     | some rb =>
       (match (t.drop (rb + 1)).head? with
        | some 40 =>
          (match strFind? t [41] (rb + 2) t.length with
           | some rp => some (strExtract t (i + 1) rb, strExtract t (rb + 2) rp, rp + 1)
           | none => none)
        | _ => none)
     | none => none)
  | _ => none

/-- The scanner loop of `markdown.parse` (markdown.py lines 81-179), fuelled;
the fuel is never exhausted for the budget `mdParse` supplies, and running out
is reported as `none`, as is the `int()` crash of the `emoji/` link target. -/
def mdLoop : Nat → List Nat → Nat → List Entity → Option (List Nat × List Entity)
  | 0, _, _, _ => none
  | f + 1, msg, i, res =>
    if i < msg.length then
      match matchDelim msg i with
      | some d =>
        (match strFind? msg d (i + d.length + 1) msg.length with
         | some endPos =>
           let msg1 := mdSplice msg d i endPos
           let res1 := mdAdjust res i endPos d.length
           if d = cps ("```") then
             (match strFind? msg1 [10] i (endPos - d.length) with
              | some li =>
                if (1 : Int) < (endPos : Int) - d.length - li then
                  let lang := strExtract msg1 i li
                  let msg2 := msg1.take i ++ strExtract msg1 (li + 1) (endPos - d.length)
                    ++ msg1.drop (endPos - d.length)
                  let mlen : Int :=
                    if lang = [] then (endPos : Int) - i - d.length
                    else (endPos : Int) - d.length - li
                  let i2 := if lang = [] then endPos - d.length
                    else endPos - d.length - (lang.length + 1)
                  mdLoop f msg2 i2 (res1 ++ [⟨.pre lang, (i : Int), mlen⟩])
                else
                  mdLoop f msg1 (endPos - d.length)
                    (res1 ++ [⟨.pre [], (i : Int), (endPos : Int) - i - d.length⟩])
              | none =>
                  mdLoop f msg1 (endPos - d.length)
                    (res1 ++ [⟨.pre [], (i : Int), (endPos : Int) - i - d.length⟩]))
           else
             let res2 := res1 ++ [⟨delimKind d, (i : Int), (endPos : Int) - i - d.length⟩]
             if d = cps ("`") then mdLoop f msg1 (endPos - d.length) res2
             else mdLoop f msg1 i res2
         | none => mdLoop f msg (i + 1) res)
      | none =>
        (match urlMatch msg i with
         | some (label, url, mEnd) =>
           let msg1 := msg.take i ++ label ++ msg.drop mEnd
           let dsize : Int := (mEnd : Int) - i - label.length
           let res1 := res.map (fun ent =>
             if (i : Int) < ent.offset + ent.length then
               { ent with length := ent.length - dsize }
             else ent)
           let u := removeSurrogates url
           if u = cps ("spoiler") then
             mdLoop f msg1 (i + label.length)
               (res1 ++ [⟨.spoiler, (i : Int), (label.length : Int)⟩])
           else if startsWith u (cps ("emoji/")) then
             (match parseInt ((splitOn 47 u).getD 1 []) with
              | some v =>
                mdLoop f msg1 (i + label.length)
                  (res1 ++ [⟨.customEmoji v, (i : Int), (label.length : Int)⟩])
              | none => none)
           else
             mdLoop f msg1 (i + label.length)
               (res1 ++ [⟨.textUrl u, (i : Int), (label.length : Int)⟩])
         | none => mdLoop f msg (i + 1) res)
    else some (msg, res)

/-- Modelled from the spec: `helpers.strip_text` is not part of the sampled
sources.  Per the spec, after the scan the engine strips entities that are now
zero-length and trims leading/trailing whitespace consistently between the
text and the entities' offsets. -/
def stripText (t : List Nat) (res : List Entity) : List Nat × List Entity :=
  let lead := (t.takeWhile isPySpace).length
  let t1 := t.drop lead
  let t2 := (t1.reverse.dropWhile isPySpace).reverse
  let res2 := res.filterMap (fun e =>
    let o : Int := max (e.offset - (lead : Int)) 0
    let en : Int := min (e.offset + e.length - (lead : Int)) (t2.length : Int)
    if o < en then some (⟨e.kind, o, en - o⟩ : Entity) else none)
  (t2, res2)

/-- `markdown.parse` (markdown.py lines 41-182) with the default delimiter
table and URL regex. -/
def mdParse (message : List Nat) : Option (List Nat × List Entity) :=
  if message = [] then some (message, [])
  else
    let m := addSurrogates message
    match mdLoop (2 * m.length + 2) m 0 [] with
    | some (m2, res) =>
      let s := stripText m2 res
      some (removeSurrogates s.1, s.2)
    | none => none

/-- `REVERSE_DELIMITERS` (markdown.py line 35).  The `^^` entry of
`DEFAULT_DELIMITERS` maps to a lambda rather than to the class, so Blockquote
has no reverse delimiter; Underline never had one. -/
def reverseDelim : EKind → Option (List Nat)
  | .bold => some (cps ("**"))
  | .italic => some (cps ("__"))
  | .strike => some (cps ("~~"))
  | .code => some (cps ("`"))
  | .pre _ => some (cps ("```"))
  | .spoiler => some (cps ("||"))
  | _ => none

/-- The url-style fallback of `markdown.unparse` (lines 224-236). -/
def urlOf : EKind → Option (List Nat)
  | .textUrl u => some u
  | .mentionName uid => some (cps ("tg://user?id=") ++ intStr uid)
  | .spoiler => some (cps ("spoiler"))
  | .customEmoji did => some (cps ("emoji/") ++ intStr did)
  | _ => none

/-- The `insert_at` requests of `markdown.unparse` (lines 212-236): pairs of
(position, ordinal, token), the ordinal being `i` for openers and
`len(entities) - i` for closers. -/
def mdInserts (n : Nat) : Nat → List Entity → List (Int × Nat × List Nat)
  | _, [] => []
  | idx, e :: rest =>
    let s := e.offset
    let en := e.offset + e.length
    (match reverseDelim e.kind with
     | some d =>
       let sdel :=
         match e.kind with
         | .pre lang => if lang ≠ [] then d ++ lang ++ [10] else d
         | _ => d
       [(s, idx, sdel), (en, n - idx, d)]
     | none =>
       match urlOf e.kind with
       | some u => [(s, idx, [91]), (en, n - idx, cps ("](") ++ u ++ [41])]
       | none => []) ++ mdInserts n (idx + 1) rest

/-- Python slice index: non-negative indices clamp at the length, negative
ones count from the end. -/
def pyIdx (n : Nat) (i : Int) : Nat :=
  if 0 ≤ i then min i.toNat n else n - min n i.natAbs

/-- Python `t[:i] + w + t[i:]`. -/
def pySplice (t : List Nat) (i : Int) (w : List Nat) : List Nat :=
  t.take (pyIdx t.length i) ++ w ++ t.drop (pyIdx t.length i)

/-- Python `t[a:b]`. -/
def pyExtract (t : List Nat) (a b : Int) : List Nat :=
  let lo := pyIdx t.length a
  let hi := pyIdx t.length b
  (t.drop lo).take (hi - lo)

/-- Sort key of `insert_at.sort(key=lambda t: (t[0], t[1]))`. -/
def insLE (a b : Int × Nat × List Nat) : Prop :=
  a.1 < b.1 ∨ (a.1 = b.1 ∧ a.2.1 ≤ b.2.1)

instance : DecidableRel insLE := fun a b => by unfold insLE; infer_instance

/-- The popping loop of `markdown.unparse` (lines 239-249): requests are
applied from the end of the sorted list, each position nudged out of any
surrogate pair before splicing. -/
def applyInserts (l : List (Int × Nat × List Nat)) (t : List Nat) : List Nat :=
  l.reverse.foldl (fun txt x => pySplice txt (nudge txt x.1) x.2.2) t

/-- `markdown.unparse` (markdown.py lines 185-251) with the default reverse
delimiter table; this is also the module-level `unparse` that markdown2.py
re-exports (markdown2.py lines 582-584). -/
def mdUnparse (text : List Nat) (entities : List Entity) : List Nat :=
  if text = [] ∨ entities = [] then text
  else
    removeSurrogates
      (applyInserts (List.insertionSort insLE (mdInserts entities.length 0 entities))
        (addSurrogates text))

/- ------------------------------------------------------------------ -/
/- markdown2.py: the HTML dialect engine                               -/
/- ------------------------------------------------------------------ -/

/-- Model of stdlib `html.escape` with `quote=True`, as used by the codec. -/
def htmlEscape (s : List Nat) : List Nat :=
  s.foldr (fun u acc =>
    (if u = 38 then cps ("&amp;")
     else if u = 60 then cps ("&lt;")
     else if u = 62 then cps ("&gt;")
     else if u = 34 then cps ("&quot;")
     else if u = 39 then cps ("&#x27;")
     else [u]) ++ acc) []

/-- Fuelled scanner behind `pyUnescape`. -/
def pyUnescapeAux : Nat → List Nat → List Nat
  | 0, s => s
  | _ + 1, [] => []
  | f + 1, u :: rest =>
    if u = 38 then
      if startsWith (u :: rest) (cps ("&amp;")) then 38 :: pyUnescapeAux f (rest.drop 4)
      else if startsWith (u :: rest) (cps ("&lt;")) then 60 :: pyUnescapeAux f (rest.drop 3)
      else if startsWith (u :: rest) (cps ("&gt;")) then 62 :: pyUnescapeAux f (rest.drop 3)
      else if startsWith (u :: rest) (cps ("&quot;")) then 34 :: pyUnescapeAux f (rest.drop 5)
      else if startsWith (u :: rest) (cps ("&#x27;")) then 39 :: pyUnescapeAux f (rest.drop 5)
      else if rest.headD 0 = 35 then
        let ds := (rest.drop 1).takeWhile (fun c => 48 ≤ c ∧ c ≤ 57)
        if ds ≠ [] ∧ (rest.drop (1 + ds.length)).headD 0 = 59 then
          ds.foldl (fun a c => a * 10 + (c - 48)) 0 :: pyUnescapeAux f (rest.drop (2 + ds.length))
        else u :: pyUnescapeAux f rest
      else u :: pyUnescapeAux f rest
    else u :: pyUnescapeAux f rest

/-- Model of stdlib `html.unescape`, restricted to the basic named and
decimal numeric character references (the forms exercised by the codec). -/
def pyUnescape (s : List Nat) : List Nat := pyUnescapeAux (s.length + 1) s

/-- ASCII letter test, as in the tokenizer's tag-name recognition. -/
def isAsciiAlphaU (u : Nat) : Bool := (65 ≤ u ∧ u ≤ 90) ∨ (97 ≤ u ∧ u ≤ 122)

/-- ASCII digit test. -/
def isDigitU (u : Nat) : Bool := 48 ≤ u ∧ u ≤ 57

/-- ASCII lower-casing of a unit, as Python lower-cases tag and attr names. -/
def toLowerU (u : Nat) : Nat := if 65 ≤ u ∧ u ≤ 90 then u + 32 else u

/-- ASCII lower-casing of a name. -/
def lowName (s : List Nat) : List Nat := s.map toLowerU

/-- Attribute list of a start tag: names with optional values, in source
order, as `html.parser` hands them to `handle_starttag`. -/
abbrev Attrs := List (List Nat × Option (List Nat))

/-- `dict(attrs)` lookup: the last occurrence of a key wins. -/
def attrsGet (attrs : Attrs) (k : List Nat) : Option (Option (List Nat)) :=
  (attrs.reverse.find? (fun kv => kv.1 = k)).map (fun kv => kv.2)

/-- `dict(attrs).get(k, "")`; a valueless attribute is modelled as empty. -/
def attrsGetD (attrs : Attrs) (k : List Nat) : List Nat :=
  match attrsGet attrs k with
  | some (some v) => v
  | _ => []

/-- `dict(attrs).get(k)` with `None` default: `none` when absent or bare. -/
def attrsGetN (attrs : Attrs) (k : List Nat) : Option (List Nat) :=
  match attrsGet attrs k with
  | some (some v) => some v
  | _ => none

/-- Key-presence test, `"expandable" in attrs`. -/
def attrsHas (attrs : Attrs) (k : List Nat) : Bool := attrs.any (fun kv => kv.1 = k)

/-- Parser state of `HTMLParserHelper` (markdown2.py lines 98-106): the
accumulated plain text, the closed entities in completion order, and the
per-tag stacks of open entities. -/
structure HState where
  text : List Nat
  entities : List Entity
  tagEnts : List (List Nat × List Entity)
deriving DecidableEq, Repr

/-- `self.tag_entities[tag].append(e)`, creating the key when missing. -/
def tagPush (m : List (List Nat × List Entity)) (tag : List Nat) (e : Entity) :
    List (List Nat × List Entity) :=
  if m.any (fun kv => kv.1 = tag) then
    m.map (fun kv => if kv.1 = tag then (kv.1, kv.2 ++ [e]) else kv)
  else m ++ [(tag, [e])]

/-- `self.tag_entities[tag].pop()` with removal of an emptied key; `none`
models the KeyError/IndexError path (an unmatched close tag). -/
def tagPop (m : List (List Nat × List Entity)) (tag : List Nat) :
    Option (Entity × List (List Nat × List Entity)) :=
  match m.find? (fun kv => kv.1 = tag) with
  | some kv =>
    (match kv.2.getLast? with
     | some e =>
       let l2 := kv.2.dropLast
       some (e,
         if l2 = [] then m.filter (fun x => x.1 ≠ tag)
         else m.map (fun x => if x.1 = tag then (x.1, l2) else x))
     | none => none)
  | none => none

/-- `HTMLParserHelper.handle_starttag` (markdown2.py lines 108-149); `none`
models the `int(None)` crash of an `emoji` tag without `document_id`. -/
def handleStart (st : HState) (tag : List Nat) (attrs : Attrs) : Option HState :=
  let push (k : EKind) : HState :=
    { st with tagEnts := tagPush st.tagEnts tag ⟨k, (st.text.length : Int), 0⟩ }
  if tag = cps ("b") ∨ tag = cps ("strong") then some (push .bold)
  else if tag = cps ("i") ∨ tag = cps ("em") then some (push .italic)
  else if tag = cps ("code") then some (push .code)
  else if tag = cps ("pre") then some (push (.pre (attrsGetD attrs (cps ("language")))))
  else if tag = cps ("spoiler") then some (push .spoiler)
  else if tag = cps ("a") then
    let url := attrsGetD attrs (cps ("href"))
    let ds := (url.drop 13).takeWhile isDigitU
    if startsWith url (cps ("tg://user?id=")) ∧ ds ≠ [] then
      some (push (.mentionName (Int.ofNat (ds.foldl (fun a c => a * 10 + (c - 48)) 0))))
    else some (push (.textUrl url))
  else if tag = cps ("emoji") then
    (match attrsGetN attrs (cps ("document_id")) with
     | some v => (parseInt v).map (fun n => push (.customEmoji n))
     | none => none)
  else if tag = cps ("u") then some (push .underline)
  else if tag = cps ("s") ∨ tag = cps ("del") ∨ tag = cps ("strike") then some (push .strike)
  else if tag = cps ("blockquote") then
    some (push (.blockquote (attrsHas attrs (cps ("expandable")))))
  else some st

/-- `HTMLParserHelper.handle_data` (lines 151-158): unescape, extend every
open entity by the data's length, append the data to the text. -/
def handleData (st : HState) (data : List Nat) : HState :=
  let d := pyUnescape data
  { text := st.text ++ d
    entities := st.entities
    tagEnts := st.tagEnts.map (fun kv =>
      (kv.1, kv.2.map (fun e => { e with length := e.length + (d.length : Int) }))) }

/-- `HTMLParserHelper.handle_endtag` (lines 160-169): pop the innermost open
entity of the tag, ignoring an unmatched close tag. -/
def handleEnd (st : HState) (tag : List Nat) : HState :=
  match tagPop st.tagEnts tag with
  | some (e, m2) => { st with entities := st.entities ++ [e], tagEnts := m2 }
  | none => st

/-- Attribute scanner of a start tag, modelling `html.parser`'s tolerant
attribute syntax (ws-separated names, optional `=` with quoted or bare
values); returns the attributes and the rest after the closing `>`. -/
def scanAttrs : Nat → List Nat → Attrs → Option (Attrs × List Nat)
  | 0, _, _ => none
  | f + 1, s, acc =>
    let s1 := s.dropWhile (fun u => isPySpace u ∨ u = 47)
    match s1 with
    | [] => none
    | 62 :: rest => some (acc, rest)
    | _ =>
      let an := s1.takeWhile (fun u => ¬ isPySpace u ∧ u ≠ 61 ∧ u ≠ 62 ∧ u ≠ 47)
      if an = [] then scanAttrs f (s1.drop 1) acc
      else
        let s3 := (s1.drop an.length).dropWhile isPySpace
        match s3 with
        | 61 :: s4 =>
          let s5 := s4.dropWhile isPySpace
          (match s5 with
           | 34 :: s6 =>
             let v := s6.takeWhile (fun u => u ≠ 34)
             scanAttrs f (s6.drop (v.length + 1)) (acc ++ [(lowName an, some (pyUnescape v))])
           | 39 :: s6 =>
             let v := s6.takeWhile (fun u => u ≠ 39)
             scanAttrs f (s6.drop (v.length + 1)) (acc ++ [(lowName an, some (pyUnescape v))])
           | _ =>
             let v := s5.takeWhile (fun u => ¬ isPySpace u ∧ u ≠ 62)
             scanAttrs f (s5.drop v.length) (acc ++ [(lowName an, some (pyUnescape v))]))
        | _ => scanAttrs f s3 (acc ++ [(lowName an, none)])

/-- Name characters of an end tag (`[-.a-zA-Z0-9:_]`). -/
def isNameCharU (u : Nat) : Bool :=
  isAsciiAlphaU u ∨ isDigitU u ∨ u = 45 ∨ u = 46 ∨ u = 58 ∨ u = 95

/-- End-tag scanner: everything up to the next `>`; a well-formed name emits
an end-tag event, anything else is dropped as a bogus tag. -/
def scanEndTag (s : List Nat) : Option (List Nat) × List Nat :=
  match strFind? s [62] 0 s.length with
  | none => (none, [])
  | some g =>
    let c1 := (s.take g).dropWhile isPySpace
    let nm := c1.takeWhile isNameCharU
    let c2 := (c1.drop nm.length).dropWhile isPySpace
    (if nm ≠ [] ∧ isAsciiAlphaU (c1.headD 0) ∧ c2 = [] then some (lowName nm) else none,
     s.drop (g + 1))

/-- Tag-aware tokenizer driving the helper's handlers, modelling
`html.parser.HTMLParser.feed` with `convert_charrefs=True` on the tag shapes
the codec produces; text data runs to the next `<`. -/
def tokenizeAux : Nat → HState → List Nat → Option HState
  | 0, st, _ => some st
  | _ + 1, st, [] => some st
  | f + 1, st, 60 :: 47 :: rest =>
    let p := scanEndTag rest
    (match p.1 with
     | some n => tokenizeAux f (handleEnd st n) p.2
     | none => tokenizeAux f st p.2)
  | f + 1, st, 60 :: rest =>
    if isAsciiAlphaU (rest.headD 0) then
      let name := rest.takeWhile (fun u => ¬ isPySpace u ∧ u ≠ 47 ∧ u ≠ 62)
      match scanAttrs (rest.length + 1) (rest.drop name.length) [] with
      | some (attrs, rest2) =>
        (match handleStart st (lowName name) attrs with
         | some st2 => tokenizeAux f st2 rest2
         | none => none)
      | none => some st
    else tokenizeAux f (handleData st [60]) rest
  | f + 1, st, u :: rest =>
    tokenizeAux f (handleData st ((u :: rest).takeWhile (fun x => x ≠ 60)))
      ((u :: rest).dropWhile (fun x => x ≠ 60))

/-- Word characters of the lead-in strip regex (`\w`, ASCII model). -/
def isWordU (u : Nat) : Bool := isAsciiAlphaU u ∨ isDigitU u ∨ u = 95

/-- Character class of `<[\w<>=\s\"]*>` (markdown2.py line 179). -/
def classOpenU (u : Nat) : Bool :=
  isWordU u ∨ u = 60 ∨ u = 62 ∨ u = 61 ∨ u = 34 ∨ isPySpace u

/-- Character class of `</[\w</>]*>` (markdown2.py line 180). -/
def classCloseU (u : Nat) : Bool := isWordU u ∨ u = 60 ∨ u = 47 ∨ u = 62

/-- Last index at which a unit occurs in a list. -/
def lastIdxOf (l : List Nat) (x : Nat) : Option Nat :=
  ((List.range l.length).filter (fun j => l.getD j 0 = x)).getLast?

/-- `re.sub(r"^\s*(<[\w<>=\s\"]*>)\s*", r"\1", text)` (markdown2.py line 179):
whitespace around a leading tag-like run is removed; the greedy class run
backtracks to the last `>` inside it. -/
def stripHead (t : List Nat) : List Nat :=
  let a := (t.takeWhile isPySpace).length
  match (t.drop a).head? with
  | some 60 =>
    let run := (t.drop (a + 1)).takeWhile classOpenU
    (match lastIdxOf run 62 with
     | some j =>
       let tagEnd := a + 1 + j + 1
       let b := ((t.drop tagEnd).takeWhile isPySpace).length
       strExtract t a tagEnd ++ t.drop (tagEnd + b)
     | none => t)
  | _ => t

/-- Match attempt of `\s*(</[\w</>]*>)\s*$` at position `p`: returns the
group's bounds when the pattern runs to the end of the string. -/
def stripTailAt (t : List Nat) (p : Nat) : Option (Nat × Nat) :=
  let a := ((t.drop p).takeWhile isPySpace).length
  match (t.drop (p + a)).head?, (t.drop (p + a + 1)).head? with
  | some 60, some 47 =>
    let run := (t.drop (p + a + 2)).takeWhile classCloseU
    (match lastIdxOf run 62 with
     | some j =>
       let tagEnd := p + a + 2 + j + 1
       if (t.drop tagEnd).all isPySpace then some (p + a, tagEnd) else none
     | none => none)
  | _, _ => none

/-- `re.sub(r"\s*(</[\w</>]*>)\s*$", r"\1", text)` (markdown2.py line 180):
the leftmost match wins. -/
def stripTail (t : List Nat) : List Nat :=
  match (List.range (t.length + 1)).find? (fun p => (stripTailAt t p).isSome) with
  | some p =>
    (match stripTailAt t p with
     | some (ts, te) => t.take p ++ strExtract t ts te
     | none => t)
  | none => t

/-- Order of `sorted(parser.entities, key=lambda e: e.offset)`: offsets
non-decreasing; the stable sort keeps completion order on ties. -/
def offLE (a b : Entity) : Prop := a.offset ≤ b.offset

instance : DecidableRel offLE := fun a b => by unfold offLE; infer_instance

instance : IsTotal Entity offLE := ⟨fun a b => Int.le_total a.offset b.offset⟩

instance : IsTrans Entity offLE := ⟨fun _ _ _ hab hbc => le_trans hab hbc⟩

/-- `HTMLParser.parse` (markdown2.py lines 176-198): strip whitespace around
the outermost tags, feed the surrogate-expanded text, drop unclosed tags, and
return the entities sorted by offset — or `None` when there are none. -/
def htmlParse (text : List Nat) : Option (List Nat × Option (List Entity)) :=
  let t := stripTail (stripHead text)
  let t2 := addSurrogates t
  match tokenizeAux (t2.length + 1) ⟨[], [], []⟩ t2 with
  | some st =>
    some (removeSurrogates st.text,
      if st.entities = [] then none else some (List.insertionSort offLE st.entities))
  | none => none

/-- `HTMLParser.unparse.parse_one` (markdown2.py lines 202-255).  The entity
classes are not part of the sampled sources; the `entity.type` dispatch is
modelled on the spec's closed kind variant.  `getattr(entity, "expandable",
False)` is always `False` on a Blockquote carrying `collapsed`, so the open
tag never gains the attribute. -/
def parseOneHtml (e : Entity) : Option ((List Nat × Int) × (List Nat × Int)) :=
  let s := e.offset
  let en := e.offset + e.length
  match e.kind with
  | .bold => some ((cps ("<b>"), s), (cps ("</b>"), en))
  | .italic => some ((cps ("<i>"), s), (cps ("</i>"), en))
  | .underline => some ((cps ("<u>"), s), (cps ("</u>"), en))
  | .strike => some ((cps ("<s>"), s), (cps ("</s>"), en))
  | .spoiler => some ((cps ("<spoiler>"), s), (cps ("</spoiler>"), en))
  | .code => some ((cps ("<code>"), s), (cps ("</code>"), en))
  | .pre lang =>
    some ((if lang ≠ [] then cps ("<pre language=\"") ++ lang ++ cps ("\">")
           else cps ("<pre>"), s), (cps ("</pre>"), en))
  | .blockquote _ => some ((cps ("<blockquote>"), s), (cps ("</blockquote>"), en))
  | .textUrl u => some ((cps ("<a href=\"") ++ u ++ cps ("\">"), s), (cps ("</a>"), en))
  | .mentionName uid =>
    some ((cps ("<a href=\"tg://user?id=") ++ intStr uid ++ cps ("\">"), s),
      (cps ("</a>"), en))
  | .customEmoji did =>
    some ((cps ("<tg-emoji document_id=\"") ++ intStr did ++ cps ("\">"), s),
      (cps ("</tg-emoji>"), en))

mutual

/-- `HTMLParser.unparse.recursive` (lines 257-274): emits the open tag,
recurses into the entities contained in this one, then emits the close tag;
returns the emitted requests and the number of entities consumed. -/
def recHtmlGo (es : List Entity) : Nat → Nat → List (List Nat × Int) × Nat
  | 0, _ => ([], 1)
  | f + 1, i =>
    match es.get? i with
    | none => ([], 1)
    | some e =>
      match parseOneHtml e with
      | none => ([], 1)
      | some ((stag, s), (etag, en)) =>
        let inner := recInner es f (i + 1) en
        ((stag, s) :: inner.1 ++ [(etag, en)], inner.2 + 1)

/-- Inner while loop of `recursive`: consume entities while the next one
starts inside the current span. -/
def recInner (es : List Entity) : Nat → Nat → Int → List (List Nat × Int) × Nat
  | 0, _, _ => ([], 0)
  | f + 1, j, en =>
    match es.get? j with
    | none => ([], 0)
    | some e2 =>
      if e2.offset < en then
        let r := recHtmlGo es f j
        let r2 := recInner es f (j + r.2) en
        (r.1 ++ r2.1, r.2 + r2.2)
      else ([], 0)

end

/-- Main loop of `HTMLParser.unparse` over first-level entities
(lines 284-286). -/
def htmlMain (es : List Entity) : Nat → Nat → List (List Nat × Int)
  | 0, _ => []
  | f + 1, i =>
    if i < es.length then
      let r := recHtmlGo es (es.length + 1) i
      r.1 ++ htmlMain es f (i + r.2)
    else []

/-- Sort key of `entities.sort(key=lambda e: (e.offset, -e.length))`:
offset ascending, ties length descending. -/
def entCmp (a b : Entity) : Prop :=
  a.offset < b.offset ∨ (a.offset = b.offset ∧ b.length ≤ a.length)

instance : DecidableRel entCmp := fun a b => by unfold entCmp; infer_instance

instance : IsTotal Entity entCmp := by
  constructor
  intro a b
  rcases lt_trichotomy a.offset b.offset with h | h | h
  · exact Or.inl (Or.inl h)
  · rcases le_total b.length a.length with hl | hl
    · exact Or.inl (Or.inr ⟨h, hl⟩)
    · exact Or.inr (Or.inr ⟨h.symm, hl⟩)
  · exact Or.inr (Or.inl h)

instance : IsTrans Entity entCmp := by
  constructor
  intro a b c hab hbc
  rcases hab with h1 | ⟨e1, l1⟩
  · rcases hbc with h2 | ⟨e2, l2⟩
    · exact Or.inl (h1.trans h2)
    · exact Or.inl (e2 ▸ h1)
  · rcases hbc with h2 | ⟨e2, l2⟩
    · exact Or.inl (e1 ▸ h2)
    · exact Or.inr ⟨e1.trans e2, l2.trans l1⟩

/-- Insertion phase of `HTMLParser.unparse` (lines 288-298), walking the
requests backwards and escaping the plain-text gap up to the previous
request. -/
def htmlInsertAll : List (List Nat × Int) → List Nat → Int → List Nat
  | [], t, _ => t
  | (tag, off) :: rest, t, lastOff =>
    let t2 := t.take (pyIdx t.length off) ++ tag ++ htmlEscape (pyExtract t off lastOff)
      ++ t.drop (pyIdx t.length lastOff)
    htmlInsertAll rest t2 off

/-- `HTMLParser.unparse` (markdown2.py lines 200-300).  The in-place
`entities.sort(...)` of line 281 is modelled by returning the sorted list as
the second component: the caller's list object holds exactly that sequence
after the call. -/
def htmlUnparse (text : List Nat) (entities : List Entity) : List Nat × List Entity :=
  let t := addSurrogates text
  let es := List.insertionSort entCmp entities
  let offs := htmlMain es (es.length + 1) 0
  let t2 :=
    match offs.getLast? with
    | none => t
    | some lastPair => htmlInsertAll offs.reverse t lastPair.2
  (removeSurrogates t2, es)

/- ------------------------------------------------------------------ -/
/- markdown2.py: the MarkdownV2 dialect                                -/
/- ------------------------------------------------------------------ -/

/-- Python `str.splitlines`: split at line boundaries, no trailing empty
line; `\r\n` counts as a single boundary. -/
def pySplitlinesGo : List Nat → List Nat → List (List Nat)
  | [], cur => if cur = [] then [] else [cur]
  | 13 :: 10 :: rest, cur => cur :: pySplitlinesGo rest []
  | u :: rest, cur =>
    if u = 10 ∨ u = 13 ∨ u = 11 ∨ u = 12 ∨ u = 28 ∨ u = 29 ∨ u = 30 ∨ u = 133
        ∨ u = 0x2028 ∨ u = 0x2029 then
      cur :: pySplitlinesGo rest []
    else pySplitlinesGo rest (cur ++ [u])

/-- Python `text.splitlines()`. -/
def pySplitlines (t : List Nat) : List (List Nat) := pySplitlinesGo t []

/-- State threaded through `escape_and_create_quotes` (markdown2.py lines
308-424): the line array with `None` placeholders, the pending quote group,
the expandable-block flag, and the indexes already escaped. -/
structure QState where
  lines : List (Option (List Nat))
  toQuote : List (Nat × List Nat)
  inside : Bool
  escaped : List Nat
deriving DecidableEq, Repr

/-- `create_blockquote` (lines 317-336): merge the pending group into its
first line, wrapped in a blockquote tag, and blank the remaining lines. -/
def mkBQ (expandable : Bool) (lines : List (Option (List Nat)))
    (toQuote : List (Nat × List Nat)) : List (Option (List Nat)) :=
  match toQuote with
  | [] => lines
  | (first, _) :: restQ =>
    let joined := List.intercalate [10] (toQuote.map (fun x => x.2))
    let l1 := lines.set first
      (some (cps ("<blockquote") ++ (if expandable then cps (" expandable") else [])
        ++ [62] ++ joined ++ cps ("</blockquote>")))
    restQ.foldl (fun acc x => acc.set x.1 none) l1

/-- One iteration of the expandable-quote pass (lines 339-393). -/
def qStep1 (strict : Bool) (st : QState) (idx : Nat) (line : List Nat) : QState :=
  if startsWith line (cps ("^^")) ∧ st.inside = false then
    let stripped := line.drop (2 + (if startsWith line (cps ("^^ ")) then 1 else 0))
    let parsed := if strict then htmlEscape stripped else stripped
    { st with
      toQuote := st.toQuote ++ [(idx, parsed)]
      escaped := st.escaped ++ [idx]
      inside := true }
  else
    let st1 :=
      if endsWith line (cps ("!^^")) ∧ st.inside then
        let l2 :=
          if startsWith line (cps (">>")) then
            line.drop (2 + (if startsWith line (cps (">> ")) then 1 else 0))
          else line
        let stripped := l2.take (l2.length - 3)
        let parsed := if strict then htmlEscape stripped else stripped
        let tq := st.toQuote ++ [(idx, parsed)]
        { lines := mkBQ true st.lines tq
          toQuote := []
          inside := false
          escaped := st.escaped ++ [idx] }
      else st
    if st1.inside then
      let parsed0 := line.drop (2 + (if startsWith line (cps (">> ")) then 1 else 0))
      let parsed := if strict then htmlEscape parsed0 else parsed0
      { st1 with toQuote := st1.toQuote ++ [(idx, parsed)], escaped := st1.escaped ++ [idx] }
    else st1

/-- One iteration of the single-line/continued-quote pass (lines 396-413),
reading the possibly rewritten line array. -/
def qStep2 (strict : Bool) (st : QState) (idx : Nat) : QState :=
  match st.lines.getD idx none with
  | none => st
  | some line =>
    if startsWith line (cps (">>")) then
      let stripped := line.drop (2 + (if startsWith line (cps (">> ")) then 1 else 0))
      let parsed := if strict then htmlEscape stripped else stripped
      { st with toQuote := st.toQuote ++ [(idx, parsed)], escaped := st.escaped ++ [idx] }
    else if st.toQuote ≠ [] then
      { st with lines := mkBQ false st.lines st.toQuote, toQuote := [] }
    else st

/-- `MarkdownV2.escape_and_create_quotes` (markdown2.py lines 307-424). -/
def escapeAndCreateQuotes (text : List Nat) (strict : Bool) : List Nat :=
  let ls := pySplitlines text
  let st0 : QState := ⟨ls.map some, [], false, []⟩
  let st1 := ls.enum.foldl (fun st p => qStep1 strict st p.1 p.2) st0
  let st2 := (List.range ls.length).foldl (fun st idx => qStep2 strict st idx) st1
  let st3 := { st2 with lines := mkBQ false st2.lines st2.toQuote, toQuote := ([] : List (Nat × List Nat)) }
  let lines4 :=
    if strict then
      st3.lines.enum.map (fun p => if p.1 ∈ st3.escaped then p.2 else p.2.map htmlEscape)
    else st3.lines
  List.intercalate [10] (lines4.filterMap id)

/-- Delimiter alternatives of `MARKDOWN_RE`, in the order the alternation
tries them (markdown2.py lines 54-74). -/
def mdv2Delims : List (List Nat) :=
  [cps ("```"), cps ("`"), cps ("~~"), cps ("--"), cps ("__"), cps ("**"), cps ("||")]

/-- The fixed-width delimiters (`FIXED_WIDTH_DELIMS`). -/
def fixedWidthDelims : List (List Nat) := [cps ("`"), cps ("```")]

/-- One match of `MARKDOWN_RE`: either a delimiter group or the
`(!?)\[(.+?)\]\((.+?)\)` link group. -/
structure MdMatch where
  start : Nat
  full : List Nat
  delim : Option (List Nat)
  isEmoji : Bool
  label : Option (List Nat)
  url : Option (List Nat)
deriving DecidableEq, Repr

/-- Lazy url group: the least `u ≥ 1` such that `u` non-newline units from
`pos` are followed by `)`. -/
def linkUrlLen (t : List Nat) (pos : Nat) : Option Nat :=
  (List.range (t.length + 1)).find? (fun u =>
    decide (1 ≤ u) && decide (pos + u < t.length) &&
    decide ((strExtract t pos (pos + u)).length = u) &&
    (strExtract t pos (pos + u)).all (fun c => c ≠ 10) &&
    decide (t.getD (pos + u) 0 = 41))

/-- Lazy label group at a `[` found at `q`: the least `l ≥ 1` such that `l`
non-newline units are followed by `](` and a url group matches after. -/
def linkMatch (t : List Nat) (q : Nat) : Option (Nat × Nat) :=
  match (List.range (t.length + 1)).find? (fun l =>
    decide (1 ≤ l) &&
    decide ((strExtract t (q + 1) (q + 1 + l)).length = l) &&
    (strExtract t (q + 1) (q + 1 + l)).all (fun c => c ≠ 10) &&
    decide (q + 1 + l < t.length) && decide (t.getD (q + 1 + l) 0 = 93) &&
    decide (q + 2 + l < t.length) && decide (t.getD (q + 2 + l) 0 = 40) &&
    (linkUrlLen t (q + 3 + l)).isSome) with
  | some l =>
    (match linkUrlLen t (q + 3 + l) with
     | some u => some (l, u)
     | none => none)
  | none => none

/-- `MARKDOWN_RE` tried at position `p`: delimiter alternatives first, then
the optional-bang link alternative. -/
def matchMdAt (t : List Nat) (p : Nat) : Option MdMatch :=
  match mdv2Delims.find? (fun d => d.isPrefixOf (t.drop p)) with
  | some d => some ⟨p, d, some d, false, none, none⟩
  | none =>
    let bang := t.getD p 0 = 33 ∧ t.getD (p + 1) 0 = 91
    let q := if bang then p + 1 else p
    if t.getD q 0 = 91 ∧ q < t.length then
      match linkMatch t q with
      | some (l, u) =>
        some ⟨p, strExtract t p (q + l + u + 4), none, bang,
          some (strExtract t (q + 1) (q + 1 + l)),
          some (strExtract t (q + 3 + l) (q + 3 + l + u))⟩
      | none => none
    else none

/-- `re.finditer(MARKDOWN_RE, text)`: non-overlapping matches, scanning left
to right on the text as it was before the rewrite loop starts. -/
def finditerMd (t : List Nat) : Nat → Nat → List MdMatch
  | 0, _ => []
  | f + 1, p =>
    if p < t.length then
      match matchMdAt t p with
      | some m => m :: finditerMd t f (p + m.full.length)
      | none => finditerMd t f (p + 1)
    else []

/-- `Vars.replace_once` (markdown2.py lines 90-92). -/
def replaceOnce (source old new : List Nat) (start : Nat) : List Nat :=
  source.take start ++
    (let rest := source.drop start
     match strFind? rest old 0 rest.length with
     | some j => rest.take j ++ new ++ rest.drop (j + old.length)
     | none => rest)

/-- Tag name for a delimiter (markdown2.py lines 457-472). -/
def mdv2Tag (d : List Nat) : Option (List Nat) :=
  if d = cps ("**") then some (cps ("b"))
  else if d = cps ("__") then some (cps ("i"))
  else if d = cps ("`") then some (cps ("code"))
  else if d = cps ("```") then some (cps ("pre"))
  else if d = cps ("||") then some (cps ("spoiler"))
  else if d = cps ("--") then some (cps ("u"))
  else if d = cps ("~~") then some (cps ("s"))
  else none

/-- Character set of `url.lstrip("tg://emoji?id=")`. -/
def emojiStripSet : List Nat := cps ("tg://emoji?id=")

/-- One iteration of the `MarkdownV2.parse` rewrite loop (markdown2.py lines
432-489), threading (text, toggle set, fixed-width flag). -/
def mdv2Step (st : List Nat × List (List Nat) × Bool) (m : MdMatch) :
    List Nat × List (List Nat) × Bool :=
  let text := st.1
  let delims := st.2.1
  let fw := st.2.2
  let fw1 := if m.delim.any (fun d => d ∈ fixedWidthDelims) then !fw else fw
  if fw1 ∧ ¬ m.delim.any (fun d => d ∈ fixedWidthDelims) then (text, delims, fw1)
  else if ¬ m.isEmoji ∧ m.label.any (fun l => l ≠ []) then
    (replaceOnce text m.full
      (cps ("<a href=\"") ++ m.url.getD [] ++ cps ("\">") ++ m.label.getD [] ++ cps ("</a>"))
      m.start, delims, fw1)
  else if m.isEmoji then
    let emojiId := (m.url.getD []).dropWhile (fun u => u ∈ emojiStripSet)
    (replaceOnce text m.full
      (cps ("<tg-emoji document_id=") ++ emojiId ++ [62] ++ m.label.getD []
        ++ cps ("</tg-emoji>"))
      m.start, delims, fw1)
  else
    match m.delim with
    | none => (text, delims, fw1)
    | some d =>
      match mdv2Tag d with
      | none => (text, delims, fw1)
      | some tg =>
        let opening := ¬ d ∈ delims
        let delims2 := if opening then delims ++ [d] else delims.filter (fun x => x ≠ d)
        let tag :=
          if opening then [60] ++ tg ++ [62]
          else cps ("</") ++ tg ++ [62]
        if d = cps ("```") ∧ opening then
          let fIdx : Int :=
            match strFind? text (cps ("```")) 0 text.length with
            | some j => (j : Int)
            | none => -1
          let dal := (text.drop (pyIdx text.length fIdx)).takeWhile (fun u => u ≠ 10)
          let language := dal.drop 3
          (replaceOnce text dal (cps ("<pre language=\"") ++ language ++ cps ("\">")) m.start,
            delims2, fw1)
        else (replaceOnce text d tag m.start, delims2, fw1)

/-- `MarkdownV2.parse` with `strict=False` (markdown2.py lines 426-491);
this is the module-level `parse` alias (line 580). -/
def mdv2Parse (text : List Nat) : Option (List Nat × Option (List Entity)) :=
  let t0 := escapeAndCreateQuotes text false
  let ms := finditerMd t0 (t0.length + 1) 0
  let final := ms.foldl mdv2Step (t0, [], false)
  htmlParse final.1

/- ------------------------------------------------------------------ -/
/- Helper lemmas                                                       -/
/- ------------------------------------------------------------------ -/

/-- A position at or past the end of a string is never within a surrogate. -/
theorem within_false_of_len_le (t : List Nat) (i : Int) (h : (t.length : Int) ≤ i) :
    withinSurrogate t i = false := by
  unfold withinSurrogate
  rw [decide_eq_false (by omega : ¬ i < (t.length : Int))]
  simp

/-- A within-surrogate position is strictly inside the string. -/
theorem within_bounds (t : List Nat) (i : Int) (h : withinSurrogate t i = true) :
    0 < i ∧ i < (t.length : Int) := by
  unfold withinSurrogate at h
  simp only [Bool.and_eq_true, decide_eq_true_eq] at h
  exact ⟨h.1.1.1, h.1.1.2⟩

/-- The nudge never moves a position backwards. -/
theorem nudgeAux_ge (t : List Nat) : ∀ (f : Nat) (i : Int), i ≤ nudgeAux t f i := by
  intro f
  induction f with
  | zero => intro i; exact le_refl i
  | succ f ih =>
    intro i
    unfold nudgeAux
    by_cases hw : withinSurrogate t i = true
    · rw [if_pos hw]
      exact le_trans (by omega) (ih (i + 1))
    · rw [if_neg hw]

/-- With enough fuel the nudge loop stops outside every surrogate pair. -/
theorem nudgeAux_not_within (t : List Nat) :
    ∀ (f : Nat) (i : Int), ((t.length : Int) ≤ (f : Int) + i ∨ i ≤ 0) →
      withinSurrogate t (nudgeAux t f i) = false := by
  intro f
  induction f with
  | zero =>
    intro i h
    unfold nudgeAux
    cases hw : withinSurrogate t i with
    | false => rfl
    | true =>
      have hb := within_bounds t i hw
      exfalso
      rcases h with h | h
      · omega
      · omega
  | succ f ih =>
    intro i h
    unfold nudgeAux
    by_cases hw : withinSurrogate t i = true
    · rw [if_pos hw]
      have hb := within_bounds t i hw
      apply ih
      left
      rcases h with h | h
      · push_cast at h ⊢; omega
      · omega
    · rw [if_neg hw]
      exact Bool.not_eq_true _ ▸ (by revert hw; cases withinSurrogate t i <;> simp)

/-- The position used by the unparse splice is never inside a surrogate. -/
theorem nudge_not_within (t : List Nat) (i : Int) :
    withinSurrogate t (nudge t i) = false := by
  unfold nudge
  apply nudgeAux_not_within
  rcases le_or_lt i 0 with h | h
  · exact Or.inr h
  · left; push_cast; omega

/-- The nudge moves forward only. -/
theorem nudge_ge (t : List Nat) (i : Int) : i ≤ nudge t i := nudgeAux_ge t _ i

/-- A position that is not within a surrogate is not nudged. -/
theorem nudge_id_of_not_within (t : List Nat) (i : Int)
    (h : withinSurrogate t i = false) : nudge t i = i := by
  unfold nudge nudgeAux
  rw [h]
  simp

/-- Splicing at or past the end of the string appends. -/
theorem pySplice_of_len_le (t w : List Nat) (i : Int) (h : (t.length : Int) ≤ i) :
    pySplice t i w = t ++ w := by
  unfold pySplice pyIdx
  rw [if_pos (by omega : (0 : Int) ≤ i)]
  have hm : min i.toNat t.length = t.length := by omega
  rw [hm, List.take_length, List.drop_length, List.append_nil]

/-- Removing surrogates after a unit that cannot open a pair skips it. -/
theorem removeSurr_cons_of_not_high (cp : Nat) (L : List Nat)
    (h : isHighSurr cp = false) :
    removeSurrogates (cp :: L) = cp :: removeSurrogates L := by
  cases L with
  | nil => rfl
  | cons b tl => simp [removeSurrogates, h]

/-- Surrogate expansion then recombination is the identity on scalar text,
also in front of an arbitrary suffix. -/
theorem removeSurr_addSurr_append (x y : List Nat)
    (hx : ∀ u ∈ x, ¬ (0xD800 ≤ u ∧ u ≤ 0xDFFF)) :
    removeSurrogates (addSurrogates x ++ y) = x ++ removeSurrogates y := by
  induction x with
  | nil => simp [addSurrogates]
  | cons cp rest ih =>
    have hcp := hx cp (List.mem_cons_self _ _)
    have hrest : ∀ u ∈ rest, ¬ (0xD800 ≤ u ∧ u ≤ 0xDFFF) :=
      fun u hu => hx u (List.mem_cons_of_mem _ hu)
    by_cases hb : 0x10000 ≤ cp ∧ cp ≤ 0x10FFFF
    · have hq : (cp - 0x10000) / 0x400 ≤ 0x3FF := by
        have h1 : cp - 0x10000 ≤ 0xFFFFF := by omega
        calc (cp - 0x10000) / 0x400 ≤ 0xFFFFF / 0x400 := Nat.div_le_div_right h1
        _ = 0x3FF := by norm_num
      have hr : (cp - 0x10000) % 0x400 < 0x400 := Nat.mod_lt _ (by norm_num)
      have hrw : addSurrogates (cp :: rest) =
          (0xD800 + (cp - 0x10000) / 0x400) :: (0xDC00 + (cp - 0x10000) % 0x400)
            :: addSurrogates rest := by
        simp [addSurrogates, if_pos hb]
      rw [hrw, List.cons_append, List.cons_append]
      have hhigh : isHighSurr (0xD800 + (cp - 0x10000) / 0x400) = true := by
        simp only [isHighSurr, Bool.and_eq_true, decide_eq_true_eq]
        omega
      have hlow : isLowSurr (0xDC00 + (cp - 0x10000) % 0x400) = true := by
        simp only [isLowSurr, Bool.and_eq_true, decide_eq_true_eq]
        omega
      have hcomb : 0x10000 + (0xD800 + (cp - 0x10000) / 0x400 - 0xD800) * 0x400
          + (0xDC00 + (cp - 0x10000) % 0x400 - 0xDC00) = cp := by
        have hdm := Nat.div_add_mod (cp - 0x10000) 0x400
        omega
      rw [show removeSurrogates ((0xD800 + (cp - 0x10000) / 0x400)
            :: (0xDC00 + (cp - 0x10000) % 0x400) :: (addSurrogates rest ++ y))
          = (0x10000 + (0xD800 + (cp - 0x10000) / 0x400 - 0xD800) * 0x400
              + (0xDC00 + (cp - 0x10000) % 0x400 - 0xDC00))
            :: removeSurrogates (addSurrogates rest ++ y) by
        simp [removeSurrogates, hhigh, hlow]]
      rw [hcomb, ih hrest, List.cons_append]
    · have hrw : addSurrogates (cp :: rest) = cp :: addSurrogates rest := by
        simp [addSurrogates, hb]
      have hnh : isHighSurr cp = false := by
        simp only [isHighSurr, Bool.and_eq_false_iff, decide_eq_false_iff_not]
        omega
      rw [hrw, List.cons_append, removeSurr_cons_of_not_high cp _ hnh, ih hrest,
        List.cons_append]

/- ------------------------------------------------------------------ -/
/- Claim theorems                                                      -/
/- ------------------------------------------------------------------ -/

/-- C1, counterexample: the round trip fails on the public pipeline.  The
markup `--a--` parses (via `MarkdownV2.parse`, the module's `parse`) to text
`a` with an Underline entity, but the module's `unparse` (the legacy
`markdown.unparse`) has no mapping for Underline and returns bare `a`, whose
re-parse has no entities at all — not the same multiset. -/
theorem c1_roundtrip_counterexample :
    mdv2Parse (cps ("--a--")) = some (cps ("a"), some [⟨.underline, 0, 1⟩]) ∧
    mdUnparse (cps ("a")) [⟨.underline, 0, 1⟩] = cps ("a") ∧
    mdv2Parse (cps ("a")) = some (cps ("a"), none) ∧
    ¬ List.Perm [(⟨.underline, 0, 1⟩ : Entity)] [] := by
  refine ⟨by decide, by decide, by decide, ?_⟩
  decide

/-- C1 (amended): parse/unparse round-tripping holds only for entity kinds
that `markdown.unparse`'s delimiter or url tables can render (Bold, Italic,
Strike, Code, Pre, Spoiler, TextUrl, MentionName, CustomEmoji); kinds absent
from both tables (Underline, Blockquote) are dropped by `unparse` and lost by
the second parse.  Representative supported-kind instance: for the document
produced by `parse("**bold**")`, `parse(unparse(text, entities))` returns the
same text and the same entities. -/
theorem c1_roundtrip_amended :
    mdv2Parse (cps ("**bold**")) = some (cps ("bold"), some [⟨.bold, 0, 4⟩]) ∧
    mdUnparse (cps ("bold")) [⟨.bold, 0, 4⟩] = cps ("**bold**") ∧
    mdv2Parse (mdUnparse (cps ("bold")) [⟨.bold, 0, 4⟩]) =
      some (cps ("bold"), some [⟨.bold, 0, 4⟩]) := by
  refine ⟨by decide, by decide, ?_⟩
  decide

/-- C2: `parse(">> a\n>> b", MarkdownV2)` collapses the contiguous quote
shorthand lines into the plain text `a\nb` carrying exactly one
`Blockquote(offset=0, length=3, collapsed=false)` entity. -/
theorem c2_blockquote_collapsing :
    mdv2Parse (cps (">> a\n>> b")) =
      some (cps ("a\nb"), some [⟨.blockquote false, 0, 3⟩]) := by
  decide

/-- C3: in the Markdown dialect a Code span suppresses inner delimiters:
`parse("`a **b** c`", Markdown)` returns the text `a **b** c` with exactly
one Code entity spanning the whole text and no Bold entity. -/
theorem c3_code_suppresses_nesting :
    mdParse (cps ("`a **b** c`")) = some (cps ("a **b** c"), [⟨.code, 0, 9⟩]) := by
  decide

/-- C4, counterexample: when the matched pair is the Pre delimiter and a
language tag is captured, the recorded entity's length is not
`end - i - len(d)`.  For ` ```py\ncode\n``` ` the pair is found at `i = 0`
with `end = 11` and `len(d) = 3`, yet the scanner records length `6`
(namely `end - len(d) - lang_index`), not `11 - 0 - 3 = 8`. -/
theorem c4_splice_counterexample :
    matchDelim (cps ("```py\ncode\n```")) 0 = some (cps ("```")) ∧
    strFind? (cps ("```py\ncode\n```")) (cps ("```")) 4 14 = some 11 ∧
    mdLoop 30 (cps ("```py\ncode\n```")) 0 [] =
      some (cps ("code\n"), [⟨.pre (cps ("py")), 0, 6⟩]) ∧
    ¬ ((6 : Int) = (11 : Int) - 0 - 3) := by
  refine ⟨by decide, by decide, by decide, ?_⟩
  decide

/-- C4 (amended): when the Markdown scanner splices out a matched delimiter
pair of token `d` found at position `i` with closing occurrence at `end` —
except in the Pre-with-language case, where the recorded length is
`end - len(d) - lang_index` instead — every previously recorded entity whose
end lies after `i` is adjusted: entities fully enclosing the deleted region
(offset at most `i`, end at least `end + len(d)`) shrink by `2*len(d)`,
the others by `len(d)`; and the new entity recorded for `d`'s kind is
`(offset = i, length = end - i - len(d))`. -/
theorem c4_splice_step (f : Nat) (msg d : List Nat) (i endPos : Nat) (res : List Entity)
    (h1 : i < msg.length)
    (h2 : matchDelim msg i = some d)
    (h3 : strFind? msg d (i + d.length + 1) msg.length = some endPos)
    (h4 : d = cps ("```") → preLangCond (mdSplice msg d i endPos) i endPos d.length = false) :
    ∃ msg2 i2, mdLoop (f + 1) msg i res =
      mdLoop f msg2 i2
        ((res.map (fun ent =>
          if (i : Int) < ent.offset + ent.length then
            if ent.offset ≤ (i : Int) ∧ (endPos : Int) + d.length ≤ ent.offset + ent.length then
              { ent with length := ent.length - 2 * d.length }
            else { ent with length := ent.length - d.length }
          else ent)) ++ [⟨delimKind d, (i : Int), (endPos : Int) - i - d.length⟩]) := by
  by_cases hd : d = cps ("```")
  · subst hd
    have hdk : delimKind (cps ("```")) = EKind.pre [] := by decide
    have hplc := h4 rfl
    unfold preLangCond at hplc
    cases hli : strFind? (mdSplice msg (cps ("```")) i endPos) [10]
        i (endPos - (cps ("```")).length) with
    | none =>
      refine ⟨mdSplice msg (cps ("```")) i endPos, endPos - (cps ("```")).length, ?_⟩
      simp only [mdLoop, if_pos h1, h2, h3, hli, mdAdjust, hdk, eq_self_iff_true, if_true]
    | some li =>
      rw [hli] at hplc
      refine ⟨mdSplice msg (cps ("```")) i endPos, endPos - (cps ("```")).length, ?_⟩
      simp only [mdLoop, if_pos h1, h2, h3, hli, mdAdjust, hdk, eq_self_iff_true, if_true]
      rw [if_neg (by simpa using hplc)]
  · by_cases hc : d = cps ("`")
    · refine ⟨mdSplice msg d i endPos, endPos - d.length, ?_⟩
      simp only [mdLoop, if_pos h1, h2, h3, mdAdjust]
      rw [if_neg hd, if_pos hc]
    · refine ⟨mdSplice msg d i endPos, i, ?_⟩
      simp only [mdLoop, if_pos h1, h2, h3, mdAdjust]
      rw [if_neg hd, if_neg hc]

/-- C4, witness: the step theorem at the concrete state scanning `**a**` at
position 0 with one previously recorded Italic entity. -/
theorem c4_splice_step_witness :
    (0 < (cps ("**a**")).length) ∧
    matchDelim (cps ("**a**")) 0 = some (cps ("**")) ∧
    strFind? (cps ("**a**")) (cps ("**")) (0 + (cps ("**")).length + 1)
      (cps ("**a**")).length = some 3 ∧
    (∃ msg2 i2, mdLoop (7 + 1) (cps ("**a**")) 0 [⟨.italic, 0, 9⟩] =
      mdLoop 7 msg2 i2
        (([(⟨.italic, 0, 9⟩ : Entity)].map (fun ent =>
          if ((0 : Nat) : Int) < ent.offset + ent.length then
            if ent.offset ≤ ((0 : Nat) : Int) ∧
                ((3 : Nat) : Int) + (cps ("**")).length ≤ ent.offset + ent.length then
              { ent with length := ent.length - 2 * (cps ("**")).length }
            else { ent with length := ent.length - (cps ("**")).length }
          else ent)) ++
          [⟨delimKind (cps ("**")), ((0 : Nat) : Int),
            ((3 : Nat) : Int) - (0 : Nat) - (cps ("**")).length⟩])) :=
  ⟨by decide, by decide, by decide,
    c4_splice_step 7 (cps ("**a**")) (cps ("**")) 0 3 [⟨.italic, 0, 9⟩]
      (by decide) (by decide) (by decide) (by decide)⟩

/-- C5, counterexample: the HTML parse sorts by offset only (a stable sort),
so ties keep completion order — the inner, shorter span first.  For
`<b><i>x</i>y</b>` the result is `[Italic(0,1), Bold(0,2)]`, which is not
ordered by (offset ascending, length descending). -/
theorem c5_sort_counterexample :
    htmlParse (cps ("<b><i>x</i>y</b>")) =
      some (cps ("xy"), some [⟨.italic, 0, 1⟩, ⟨.bold, 0, 2⟩]) ∧
    ¬ List.Sorted entCmp [(⟨.italic, 0, 1⟩ : Entity), ⟨.bold, 0, 2⟩] := by
  refine ⟨by decide, ?_⟩
  decide

/-- C5 (amended): for every input, the entity sequence returned by the HTML
dialect parse is sorted by offset ascending; ties keep the parser's
completion order (an inner span can precede the outer one), not length
descending. -/
theorem c5_sorted_by_offset (input t : List Nat) (ents : List Entity)
    (h : htmlParse input = some (t, some ents)) : List.Sorted offLE ents := by
  simp only [htmlParse] at h
  cases htok : tokenizeAux ((addSurrogates (stripTail (stripHead input))).length + 1)
      ⟨[], [], []⟩ (addSurrogates (stripTail (stripHead input))) with
  | none => rw [htok] at h; exact absurd h (by simp)
  | some st =>
    rw [htok] at h
    simp only [Option.some.injEq, Prod.mk.injEq] at h
    obtain ⟨-, h2⟩ := h
    by_cases he : st.entities = []
    · rw [if_pos he] at h2; exact absurd h2 (by simp)
    · rw [if_neg he] at h2
      obtain rfl : ents = List.insertionSort offLE st.entities :=
        (Option.some.injEq _ _ ▸ h2).symm
      exact List.sorted_insertionSort offLE st.entities

/-- C5, witness: the sortedness theorem at the concrete parse of
`<b><i>x</i>y</b>`. -/
theorem c5_sorted_by_offset_witness :
    htmlParse (cps ("<b><i>x</i>y</b>")) =
      some (cps ("xy"), some [⟨.italic, 0, 1⟩, ⟨.bold, 0, 2⟩]) ∧
    List.Sorted offLE [(⟨.italic, 0, 1⟩ : Entity), ⟨.bold, 0, 2⟩] :=
  ⟨by decide,
    c5_sorted_by_offset (cps ("<b><i>x</i>y</b>")) (cps ("xy"))
      [⟨.italic, 0, 1⟩, ⟨.bold, 0, 2⟩] (by decide)⟩

/-- C6, counterexample: on empty markup the HTML dialect parse returns `None`
for the entities, not an empty sequence. -/
theorem c6_empty_counterexample :
    htmlParse [] = some ([], none) ∧ (none : Option (List Entity)) ≠ some [] := by
  refine ⟨by decide, ?_⟩
  decide

/-- C6 (amended): for empty markup, the Markdown dialect returns the markup
with an empty entity list, while the HTML and MarkdownV2 dialects return the
markup with `None` in place of the empty sequence. -/
theorem c6_empty_parse :
    mdParse [] = some ([], []) ∧
    htmlParse [] = some ([], none) ∧
    mdv2Parse [] = some ([], none) := by
  refine ⟨by decide, by decide, ?_⟩
  decide

/-- C7, counterexample: `unparse` signals nothing on an out-of-range entity.
With text `ab` (length 2) and a Bold entity at offset 5, length 3, it
produces `ab****` — output built from clamped out-of-bounds positions, with
no `InvalidEntity` condition anywhere in the code. -/
theorem c7_out_of_range_counterexample :
    mdUnparse (cps ("ab")) [⟨.bold, 5, 3⟩] = cps ("ab****") := by
  decide

/-- C7 (amended): `unparse` performs no bounds validation.  An entity lying
entirely past the end of the text is processed normally: both delimiters are
spliced at positions clamped to the end, so for any scalar text and a Bold
entity with nonnegative length whose offset is at least two past the end of
the surrogate-expanded text, `unparse` returns the text with the two
delimiters appended. -/
theorem c7_out_of_range_amended (text : List Nat) (s L : Int)
    (h0 : text ≠ [])
    (hL : 0 ≤ L)
    (hs : ((addSurrogates text).length : Int) + 2 ≤ s)
    (hx : ∀ u ∈ text, ¬ (0xD800 ≤ u ∧ u ≤ 0xDFFF)) :
    mdUnparse text [⟨.bold, s, L⟩] = text ++ cps ("****") := by
  unfold mdUnparse
  rw [if_neg (by simp [h0])]
  have hins : mdInserts 1 0 [(⟨.bold, s, L⟩ : Entity)] =
      [(s, 0, cps ("**")), (s + L, 1, cps ("**"))] := by
    simp [mdInserts, reverseDelim]
  rw [List.length_singleton, hins]
  have hle : insLE (s, 0, cps ("**")) (s + L, 1, cps ("**")) := by
    rcases eq_or_lt_of_le hL with h | h
    · right
      refine ⟨?_, by norm_num⟩
      show s = s + L
      omega
    · left
      show s < s + L
      omega
  have hsort : List.insertionSort insLE [(s, 0, cps ("**")), (s + L, 1, cps ("**"))]
      = [(s, 0, cps ("**")), (s + L, 1, cps ("**"))] := by
    simp only [List.insertionSort, List.orderedInsert]
    rw [if_pos hle]
  rw [hsort]
  unfold applyInserts
  simp only [List.reverse_cons, List.reverse_nil, List.nil_append, List.singleton_append,
    List.foldl_cons, List.foldl_nil]
  set T := addSurrogates text with hT
  have hlen : (T.length : Int) ≤ s + L := by omega
  have hw1 : withinSurrogate T (s + L) = false := within_false_of_len_le _ _ hlen
  rw [nudge_id_of_not_within _ _ hw1, pySplice_of_len_le _ _ _ hlen]
  have hlen2 : (((T ++ cps ("**")).length : Int)) ≤ s := by
    rw [List.length_append]
    push_cast
    have : (cps ("**")).length = 2 := by decide
    omega
  have hw2 := within_false_of_len_le (T ++ cps ("**")) s hlen2
  rw [nudge_id_of_not_within _ _ hw2, pySplice_of_len_le _ _ _ hlen2]
  rw [List.append_assoc]
  have hcat : cps ("**") ++ cps ("**") = cps ("****") := by decide
  rw [hcat, hT, removeSurr_addSurr_append _ _ hx]
  rw [show removeSurrogates (cps ("****")) = cps ("****") from by decide]

/-- C7, witness: the amended theorem at text `ab` with the out-of-range
entity Bold(5, 3), reproducing the counterexample's output. -/
theorem c7_out_of_range_witness :
    (cps ("ab") ≠ []) ∧ ((0 : Int) ≤ 3) ∧
    (((addSurrogates (cps ("ab"))).length : Int) + 2 ≤ 5) ∧
    mdUnparse (cps ("ab")) [⟨.bold, 5, 3⟩] = cps ("ab") ++ cps ("****") :=
  ⟨by decide, by decide, by decide,
    c7_out_of_range_amended (cps ("ab")) 5 3 (by decide) (by decide) (by decide) (by decide)⟩

/-- C8: surrogate-pair handling.  Every codepoint outside the BMP expands to
exactly two units — a high then a low surrogate — so an entity spanning one
such codepoint has length 2 in the offset address space (shown for the
MarkdownV2 parse of `**😀**`); and the insertion-position nudge used by
`unparse` only ever moves positions forward and never leaves them strictly
inside a surrogate pair. -/
theorem c8_surrogate_handling :
    (∀ cp, 0x10000 ≤ cp → cp ≤ 0x10FFFF →
      addSurrogates [cp] =
        [0xD800 + (cp - 0x10000) / 0x400, 0xDC00 + (cp - 0x10000) % 0x400] ∧
      (addSurrogates [cp]).length = 2 ∧
      isHighSurr (0xD800 + (cp - 0x10000) / 0x400) = true ∧
      isLowSurr (0xDC00 + (cp - 0x10000) % 0x400) = true) ∧
    mdv2Parse (cps ("**😀**")) = some (cps ("😀"), some [⟨.bold, 0, 2⟩]) ∧
    (∀ (t : List Nat) (i : Int), i ≤ nudge t i ∧ withinSurrogate t (nudge t i) = false) := by
  refine ⟨?_, by decide, fun t i => ⟨nudge_ge t i, nudge_not_within t i⟩⟩
  intro cp h1 h2
  have hadd : addSurrogates [cp] =
      [0xD800 + (cp - 0x10000) / 0x400, 0xDC00 + (cp - 0x10000) % 0x400] := by
    simp [addSurrogates, if_pos (⟨h1, h2⟩ : _ ∧ _)]
  have hq : (cp - 0x10000) / 0x400 ≤ 0x3FF := by
    have hb : cp - 0x10000 ≤ 0xFFFFF := by omega
    calc (cp - 0x10000) / 0x400 ≤ 0xFFFFF / 0x400 := Nat.div_le_div_right hb
    _ = 0x3FF := by norm_num
  have hr : (cp - 0x10000) % 0x400 < 0x400 := Nat.mod_lt _ (by norm_num)
  refine ⟨hadd, by rw [hadd]; rfl, ?_, ?_⟩
  · simp only [isHighSurr, Bool.and_eq_true, decide_eq_true_eq]
    omega
  · simp only [isLowSurr, Bool.and_eq_true, decide_eq_true_eq]
    omega

/-- C8, witness: the expansion at the concrete astral codepoint U+1F600. -/
theorem c8_surrogate_handling_witness :
    (0x10000 ≤ 0x1F600) ∧ (0x1F600 ≤ 0x10FFFF) ∧
    addSurrogates [0x1F600] = [0xD83D, 0xDE00] ∧
    (addSurrogates [0x1F600]).length = 2 :=
  ⟨by decide, by decide,
    (c8_surrogate_handling.1 0x1F600 (by decide) (by decide)).1,
    (c8_surrogate_handling.1 0x1F600 (by decide) (by decide)).2.1⟩

/-- C9: the HTML dialect parse recovers from unbalanced tags: a tag still
open at end of input contributes no entity but its data stays in the text
(`<b>bold` gives text `bold` and no Bold entity), and a close tag with no
matching open tag is ignored (`a</b>b` gives text `ab` and no entities). -/
theorem c9_html_recovery :
    htmlParse (cps ("<b>bold")) = some (cps ("bold"), none) ∧
    htmlParse (cps ("a</b>b")) = some (cps ("ab"), none) := by
  refine ⟨by decide, ?_⟩
  decide

/-- C10, counterexample: the HTML engine's `unparse` re-sorts the caller's
entity list in place; after the call on `[Italic(0,1), Bold(0,2)]` the list
is no longer in its original order. -/
theorem c10_unparse_counterexample :
    (htmlUnparse (cps ("xy")) [⟨.italic, 0, 1⟩, ⟨.bold, 0, 2⟩]).2 ≠
      [⟨.italic, 0, 1⟩, ⟨.bold, 0, 2⟩] := by
  decide

/-- C10 (amended): `markdown.unparse` and `MarkdownV2.unparse` are pure
functions of their inputs, but the HTML engine's `unparse` stably re-sorts
the caller's entity list in place by (offset ascending, length descending):
after the call the list holds a permutation of the original elements, in
that sorted order. -/
theorem c10_unparse_entities_sorted (t : List Nat) (es : List Entity) :
    ((htmlUnparse t es).2).Perm es ∧ List.Sorted entCmp (htmlUnparse t es).2 := by
  have h2 : (htmlUnparse t es).2 = List.insertionSort entCmp es := rfl
  rw [h2]
  exact ⟨List.perm_insertionSort entCmp es, List.sorted_insertionSort entCmp es⟩
